import Mathlib

/-!
Verification of the ai-concierge generation core.

A shallow embedding of the Rust sources `src-tauri/src/llm.rs`,
`src-tauri/src/rag.rs`, `src-tauri/src/lib.rs` and `src-tauri/src/ollama.rs`,
together with theorems settling the specification claims.

Modelling conventions:
* Rust strings are modelled as `List Char`; lengths and slice offsets are
  character counts.
* The external model forward pass, the tokenizer, and the random number
  generator used for temperature sampling are external library components;
  they are abstract parameters of an `Engine` structure.  Logits are
  modelled as rationals.
* Fallible Rust functions on the paths the claims are about are modelled on
  their success path; file-system access is an explicit map parameter.
-/

/-- Rust `String` / `&str`, modelled as a list of characters. -/
abbrev Str := List Char

/-- Convert a Lean string literal into the `Str` model. -/
def str (s : String) : Str := s.data

/-! ## llm.rs: data model -/

/-- `candle_transformers::models::llama::LlamaEosToks`: a single stop id or a
set of stop ids. -/
inductive LlamaEosToks where
  | single (id : Nat) : LlamaEosToks
  | multiple (ids : List Nat) : LlamaEosToks
deriving Repr, DecidableEq

/-- The kv-cache: the `use_kv_cache` flag (set from the first argument of
`Cache::new`) together with the opaque accumulated attention state `σ`. -/
structure KvCache (σ : Type) where
  use_kv_cache : Bool
  st : σ

/-- The mutable state threaded through one decode loop run of
`LlmEngine::generate` / `generate_stream`: the token sequence, the
`index_pos` counter, the cache, and the sampler rng state. -/
structure LoopState (σ ρ : Type) where
  tokens : List Nat
  index_pos : Nat
  cache : KvCache σ
  rng : ρ

/-- The engine: tokenizer, model, and sampler randomness, all external
library components abstracted as functions.  `forward tokens pos st`
returns the logits for the last position and the updated cache state.
`draw_all` is `candle`'s `Sampling::All` temperature draw; `seed_rng`
builds the rng state from the seed. -/
structure Engine (σ ρ : Type) where
  encode : Str → List Nat
  decode : List Nat → Str
  init_cache : σ
  forward : List Nat → Nat → σ → List ℚ × σ
  seed_rng : Nat → ρ
  draw_all : ℚ → List ℚ → ρ → Nat × ρ
  config_eos : Option LlamaEosToks
  token_to_id : Str → Option Nat

/-- `const EOS_TOKEN: &str = "</s>";` -/
def EOS_TOKEN : Str := str "</s>"

/-- `const DEFAULT_REPEAT_PENALTY: f32 = 1.1;` (modelled as a rational). -/
def DEFAULT_REPEAT_PENALTY : ℚ := 11 / 10

/-- `const DEFAULT_REPEAT_LAST_N: usize = 64;` -/
def DEFAULT_REPEAT_LAST_N : Nat := 64

/-- `candle`'s `LogitsProcessor` arg-max sampling: index of the maximum
logit, later indices winning ties (Rust `Iterator::max_by` returns the
last maximal element).  Empty logits are modelled as index 0. -/
def sample_argmax (logits : List ℚ) : Nat :=
  ((logits.enum.foldl
      (fun best p =>
        match best with
        | none => some p
        | some b => if b.2 ≤ p.2 then some p else some b)
      none).map Prod.fst).getD 0

/-- `LogitsProcessor::from_sampling(seed, sampling).sample(logits)` where
`sampling` is `ArgMax` for `temperature <= 0.0` and `All { temperature }`
otherwise (the selection made at the top of `generate`).  Arg-max ignores
and does not advance the rng. -/
def lp_sample (e : Engine σ ρ) (temperature : ℚ) (logits : List ℚ) (rng : ρ) :
    Nat × ρ :=
  if temperature ≤ 0 then (sample_argmax logits, rng)
  else e.draw_all temperature logits rng

/-- Modelled from the spec: `candle_transformers::utils::apply_repeat_penalty`
is an external crate function whose source is not part of this repository.
Spec §4.1 step 3: "rescale logits for every token appearing in the trailing
lookback window of the sequence: for each such token's logit value, divide
by the penalty if the value is positive, multiply by the penalty if
negative". -/
def apply_repeat_penalty (logits : List ℚ) (penalty : ℚ) (context : List Nat) :
    List ℚ :=
  logits.enum.map
    (fun p =>
      if context.contains p.1 then
        (if 0 ≤ p.2 then p.2 / penalty else p.2 * penalty)
      else p.2)

/-- Rust `f32::abs`, written as an explicit conditional so that it
computes. -/
def rat_abs (q : ℚ) : ℚ := if q < 0 then -q else q

/-- The repeat-penalty step of the decode loop (`llm.rs` lines 136-142 /
227-233): skip the rescale when the penalty is within `1e-6` of `1.0`
(`(DEFAULT_REPEAT_PENALTY - 1.0).abs() < 1e-6`), otherwise apply it over
the trailing `last_n` tokens. -/
def repeat_penalty_step (penalty : ℚ) (last_n : Nat) (logits : List ℚ)
    (tokens : List Nat) : List ℚ :=
  if rat_abs (penalty - 1) < 1 / 1000000 then logits
  else apply_repeat_penalty logits penalty (tokens.drop (tokens.length - last_n))

/-- The `(context_size, context_index)` selection at the top of each decode
step: `if cache.use_kv_cache && tokens.len() > prompt_len { (1, index_pos) }
else { (tokens.len(), 0) }`. -/
def context_spec (use_kv : Bool) (prompt_len : Nat) (tokens : List Nat)
    (index_pos : Nat) : Nat × Nat :=
  if use_kv = true ∧ prompt_len < tokens.length then (1, index_pos)
  else (tokens.length, 0)

/-- The forward window of a decode step:
`&tokens[tokens.len().saturating_sub(context_size)..]`. -/
def step_window (prompt_len : Nat) (s : LoopState σ ρ) : List Nat :=
  s.tokens.drop
    (s.tokens.length -
      (context_spec s.cache.use_kv_cache prompt_len s.tokens s.index_pos).1)

/-- The position argument of a decode step's forward call. -/
def step_ctx_index (prompt_len : Nat) (s : LoopState σ ρ) : Nat :=
  (context_spec s.cache.use_kv_cache prompt_len s.tokens s.index_pos).2

/-- One iteration of the decode loop body shared by `generate` (lines
116-149) and `generate_stream` (lines 207-240): choose the window, run the
forward pass, apply the repeat penalty, sample, advance `index_pos` by the
window length and push the sampled token.  Returns the sampled token and
the updated state. -/
def decode_step (e : Engine σ ρ) (temperature : ℚ) (prompt_len : Nat)
    (s : LoopState σ ρ) : Nat × LoopState σ ρ :=
  let ctxt := step_window prompt_len s
  let fwd := e.forward ctxt (step_ctx_index prompt_len s) s.cache.st
  let logits := repeat_penalty_step DEFAULT_REPEAT_PENALTY
    DEFAULT_REPEAT_LAST_N fwd.1 s.tokens
  let sampled := lp_sample e temperature logits s.rng
  (sampled.1,
   { tokens := s.tokens ++ [sampled.1]
     index_pos := s.index_pos + ctxt.length
     cache := { s.cache with st := fwd.2 }
     rng := sampled.2 })

/-- The stop check after pushing a sampled token (`llm.rs` lines 151-155). -/
def is_stop_token : Option LlamaEosToks → Nat → Bool
  | some (LlamaEosToks.single id), t => t = id
  | some (LlamaEosToks.multiple ids), t => ids.contains t
  | none, _ => false

/-- The batch decode loop of `LlmEngine::generate`: `for _ in 0..max_tokens`
running `decode_step`, breaking right after a stop token is pushed. -/
def decode_loop (e : Engine σ ρ) (temperature : ℚ) (prompt_len : Nat)
    (eos : Option LlamaEosToks) : Nat → LoopState σ ρ → LoopState σ ρ
  | 0, s => s
  | n + 1, s =>
    if is_stop_token eos (decode_step e temperature prompt_len s).1 then
      (decode_step e temperature prompt_len s).2
    else
      decode_loop e temperature prompt_len eos n
        (decode_step e temperature prompt_len s).2

/-- The stop-token resolution at the top of both generation functions:
`config.eos_token_id.clone().or_else(|| tokenizer.token_to_id(EOS_TOKEN)
.map(LlamaEosToks::Single))`. -/
def resolve_eos (e : Engine σ ρ) : Option LlamaEosToks :=
  e.config_eos.orElse
    (fun _u => (e.token_to_id EOS_TOKEN).map LlamaEosToks.single)

/-- The loop state at generation start: encoded prompt, `index_pos = 0`, a
fresh cache from `Cache::new(true, ..)`, and the rng seeded from `seed`. -/
def init_state (e : Engine σ ρ) (seed : Nat) (tokens : List Nat) :
    LoopState σ ρ :=
  { tokens := tokens
    index_pos := 0
    cache := { use_kv_cache := true, st := e.init_cache }
    rng := e.seed_rng seed }

/-- The loop state at the end of a `LlmEngine::generate` run. -/
def generate_final_state (e : Engine σ ρ) (prompt : Str) (max_tokens : Nat)
    (temperature : ℚ) (seed : Nat) : LoopState σ ρ :=
  let tokens := e.encode prompt
  decode_loop e temperature tokens.length (resolve_eos e) max_tokens
    (init_state e seed tokens)

/-- `LlmEngine::generate` (llm.rs lines 81-165): run the decode loop, then
decode the generated suffix `tokens[prompt_len..]`. -/
def Engine.generate (e : Engine σ ρ) (prompt : Str) (max_tokens : Nat)
    (temperature : ℚ) (seed : Nat) : Str :=
  e.decode
    ((generate_final_state e prompt max_tokens temperature seed).tokens.drop
      (e.encode prompt).length)

/-- The emission block of one `generate_stream` iteration (llm.rs lines
242-254): re-decode the generated suffix into `full_text`; when it extends
past the previously emitted length, emit the non-empty net-new tail and
record the new length.  Returns the updated
`(last_emitted_len, emitted fragments)`. -/
def stream_emit (full_text : Str) (last_emitted_len : Nat) (acc : List Str) :
    Nat × List Str :=
  if last_emitted_len < full_text.length then
    (full_text.length,
     if (full_text.drop last_emitted_len).isEmpty then acc
     else acc ++ [full_text.drop last_emitted_len])
  else (last_emitted_len, acc)

/-- The streaming decode loop of `LlmEngine::generate_stream` (lines
207-261): the same step as the batch loop, but after each push the full
generated suffix is re-decoded and the net-new tail past the previously
emitted length is emitted through `stream_emit`.  Emission is modelled by
accumulating the emitted fragments in order. -/
def stream_loop (e : Engine σ ρ) (temperature : ℚ) (prompt_len : Nat)
    (eos : Option LlamaEosToks) :
    Nat → LoopState σ ρ → Nat → List Str → LoopState σ ρ × Nat × List Str
  | 0, s, last_emitted_len, acc => (s, last_emitted_len, acc)
  | n + 1, s, last_emitted_len, acc =>
    if is_stop_token eos (decode_step e temperature prompt_len s).1 then
      ((decode_step e temperature prompt_len s).2,
       stream_emit
         (e.decode ((decode_step e temperature prompt_len s).2.tokens.drop
           prompt_len)) last_emitted_len acc)
    else
      stream_loop e temperature prompt_len eos n
        (decode_step e temperature prompt_len s).2
        (stream_emit
          (e.decode ((decode_step e temperature prompt_len s).2.tokens.drop
            prompt_len)) last_emitted_len acc).1
        (stream_emit
          (e.decode ((decode_step e temperature prompt_len s).2.tokens.drop
            prompt_len)) last_emitted_len acc).2

/-- The loop state at the end of a `LlmEngine::generate_stream` run. -/
def stream_final_state (e : Engine σ ρ) (prompt : Str) (max_tokens : Nat)
    (temperature : ℚ) (seed : Nat) : LoopState σ ρ :=
  let tokens := e.encode prompt
  (stream_loop e temperature tokens.length (resolve_eos e) max_tokens
    (init_state e seed tokens) 0 []).1

/-- `LlmEngine::generate_stream`, observed through the ordered list of
fragments passed to the `emit` callback. -/
def Engine.generate_stream (e : Engine σ ρ) (prompt : Str) (max_tokens : Nat)
    (temperature : ℚ) (seed : Nat) : List Str :=
  let tokens := e.encode prompt
  (stream_loop e temperature tokens.length (resolve_eos e) max_tokens
    (init_state e seed tokens) 0 []).2.2

/-! ## rag.rs -/

/-- `rag::Event`: a calendar record with three string fields. -/
structure Event where
  title : Str
  date : Str
  description : Str

/-- Rust `str::to_lowercase`, modelled character-wise. -/
def to_lower (s : Str) : Str := s.map Char.toLower

/-- Rust `str::split_whitespace`: maximal runs of non-whitespace
characters, with no empty pieces. -/
def split_whitespace : Str → List Str
  | [] => []
  | c :: rest =>
    if c.isWhitespace then split_whitespace rest
    else
      match split_whitespace rest with
      | [] => [[c]]
      | w :: ws =>
        match rest with
        | [] => [[c]]
        | c2 :: _ =>
          if c2.isWhitespace then [c] :: w :: ws else (c :: w) :: ws

/-- Rust `str::contains(&str)`: substring test. -/
def contains_sub (hay w : Str) : Bool :=
  (List.range (hay.length + 1)).any (fun i => w.isPrefixOf (hay.drop i))

/-- `rag::event_searchable_text`:
`format!("{} {}", event.title, event.description).to_lowercase()`. -/
def event_searchable_text (ev : Event) : Str :=
  to_lower (ev.title ++ [' '] ++ ev.description)

/-- The usable query words of `search_events`: the lower-cased query split
on whitespace, keeping only words of length > 1. -/
def query_words (query : Str) : List Str :=
  (split_whitespace (to_lower query)).filter (fun w => 1 < w.length)

/-- The score `search_events` computes for one event: the number of query
words contained as a substring of the event's searchable text. -/
def score_event (words : List Str) (ev : Event) : Nat :=
  (words.filter (fun w => contains_sub (event_searchable_text ev) w)).length

/-- The comparison of `scored.sort_by(|a, b| b.0.cmp(&a.0))`: descending by
score; Rust `sort_by` is stable, as is `List.mergeSort`. -/
def score_desc (a b : Nat × Event) : Bool := decide (b.1 ≤ a.1)

/-- The scored positives of `search_events`: each event paired with its
score, keeping only the events with at least one match, in original
order. -/
def scored_events (events : List Event) (words : List Str) :
    List (Nat × Event) :=
  (events.map (fun ev => (score_event words ev, ev))).filter
    (fun p => decide (0 < p.1))

/-- `rag::search_events` (rag.rs lines 22-42).  Rust's stable `sort_by`
with comparator `b.0.cmp(&a.0)` is modelled by the stable `mergeSort`
under `score_desc`. -/
def search_events (events : List Event) (query : Str) (limit : Nat) :
    List Event :=
  if (query_words query).isEmpty then events.take limit
  else
    (((scored_events events (query_words query)).mergeSort
        score_desc).take limit).map Prod.snd

/-- `rag::format_events_for_prompt` (rag.rs lines 44-53). -/
def format_events_for_prompt (events : List Event) : Str :=
  if events.isEmpty then str "(No relevant events found.)"
  else
    (events.map
        (fun ev => str "- " ++ ev.title ++ str " (" ++ ev.date ++ str ") " ++
          ev.description)).intersperse (str "\n") |>.flatten

/-! ## lib.rs -/

/-- The file system seen by `build_prompt_with_rag`, as a map from path to
`none` (file missing: `path.exists()` is false) or `some r` where `r` is
the combined result of reading and JSON-parsing the events file
(`rag::load_events`). -/
abbrev FileSys := Str → Option (Except Str (List Event))

/-- `rag::load_events` under the `FileSys` model (rag.rs lines 10-16): an
unreadable or malformed file is an `Except.error`. -/
def load_events (fs : FileSys) (p : Str) : Except Str (List Event) :=
  match fs p with
  | some r => r
  | none => Except.error (str "Failed to read events file")

/-- `rag::retrieve_context` (rag.rs lines 55-59). -/
def retrieve_context (fs : FileSys) (p : Str) (query : Str) (limit : Nat) :
    Except Str Str :=
  match load_events fs p with
  | Except.error e => Except.error e
  | Except.ok events =>
    Except.ok (format_events_for_prompt (search_events events query limit))

/-- The `date_line` of `build_prompt_with_rag`:
`current_date.map(|d| format!("Today's date: {}.\n", d)).unwrap_or_default()`. -/
def date_line_of (current_date : Option Str) : Str :=
  match current_date with
  | some d => str "Today's date: " ++ d ++ str ".\n"
  | none => []

/-- The prompt built when RAG retrieval succeeds (lib.rs lines 29-32). -/
def rag_prompt (date_line context prompt : Str) : Str :=
  str "<|system|>\n" ++ date_line ++ str "Relevant events:\n" ++ context ++
  str "\nOnly output the assistant reply. Do not generate any user message or \"User:\" line.</s>\n<|user|>\n" ++
  prompt ++ str "</s>\n<|assistant|>\n"

/-- The prompt built when no retrieved context is used (lib.rs lines 42-49). -/
def fallback_prompt (date_line prompt : Str) : Str :=
  if date_line.isEmpty then
    str "<|user|>\n" ++ prompt ++ str "</s>\n<|assistant|>\n"
  else
    str "<|system|>\n" ++ date_line ++
    str "Only output the assistant reply. Do not generate any user message or \"User:\" line.</s>\n<|user|>\n" ++
    prompt ++ str "</s>\n<|assistant|>\n"

/-- `build_prompt_with_rag` (lib.rs lines 15-50).  A missing events file or
a failing `retrieve_context` only logs a warning and falls through to the
unaugmented prompt. -/
def build_prompt_with_rag (fs : FileSys) (prompt : Str)
    (events_path : Option Str) (current_date : Option Str) : Str :=
  let date_line := date_line_of current_date
  match events_path with
  | some path =>
    if (fs path).isSome then
      match retrieve_context fs path prompt 5 with
      | Except.ok context => rag_prompt date_line context prompt
      | Except.error _ => fallback_prompt date_line prompt
    else fallback_prompt date_line prompt
  | none => fallback_prompt date_line prompt

/-- Scan for the first index at which `p` holds, starting at `i` with
`fuel` indices left to try (Rust `str::find` first-occurrence scan). -/
def find_from (p : Nat → Bool) : Nat → Nat → Option Nat
  | 0, _ => none
  | fuel + 1, i => if p i then some i else find_from p fuel (i + 1)

/-- Rust `response.find(m)`: the least index at which `m` occurs as a
substring of `response`, if any. -/
def find_sub_idx (response m : Str) : Option Nat :=
  find_from (fun i => m.isPrefixOf (response.drop i)) (response.length + 1) 0

/-- The marker list of `strip_fake_user_prompts`. -/
def fake_user_markers : List Str :=
  [str "\nUser:", str "\n<|user|>", str "\n\nUser:"]

/-- The truncation point of `strip_fake_user_prompts`:
`markers.iter().filter_map(|m| response.find(m)).min().unwrap_or(response.len())`. -/
def truncate_at (response : Str) : Nat :=
  ((fake_user_markers.filterMap (fun m => find_sub_idx response m)).min?).getD
    response.length

/-- Rust `str::trim_end`: drop trailing whitespace. -/
def trim_end (s : Str) : Str := (s.reverse.dropWhile Char.isWhitespace).reverse

/-- `strip_fake_user_prompts` (lib.rs lines 53-61). -/
def strip_fake_user_prompts (response : Str) : Str :=
  trim_end (response.take (truncate_at response))

/-- Some strip marker occurs at character index `i` of `response`. -/
def marker_at (response : Str) (i : Nat) : Prop :=
  ∃ m ∈ fake_user_markers, m.isPrefixOf (response.drop i) = true

/-- The fixed seed of the `generate` command: `let seed = 299792458u64;`. -/
def GENERATE_SEED : Nat := 299792458

/-- The raw engine output inside the `generate` Tauri command (lib.rs lines
63-94), before `strip_fake_user_prompts`. -/
def generate_command_raw (e : Engine σ ρ) (fs : FileSys) (prompt : Str)
    (events_path current_date : Option Str) (max_tokens : Option Nat)
    (temperature : Option ℚ) : Str :=
  e.generate (build_prompt_with_rag fs prompt events_path current_date)
    (max_tokens.getD 128) (temperature.getD 0) GENERATE_SEED

/-- The string returned by the `generate` Tauri command on its success
path. -/
def generate_command (e : Engine σ ρ) (fs : FileSys) (prompt : Str)
    (events_path current_date : Option Str) (max_tokens : Option Nat)
    (temperature : Option ℚ) : Str :=
  strip_fake_user_prompts
    (generate_command_raw e fs prompt events_path current_date max_tokens
      temperature)

/-! ## ollama.rs -/

/-- One line of the streamed response body of `ollama::stream_generate`,
classified the way the loop at lines 67-87 classifies it: empty, not valid
UTF-8, not parseable as JSON, or a parsed `GenerateChunk` with its optional
`response` and `done` fields. -/
inductive BodyLine where
  | empty_line : BodyLine
  | invalid_utf8 : BodyLine
  | invalid_json : BodyLine
  | chunk (response : Option Str) (done : Option Bool) : BodyLine

/-- The line loop of `ollama::stream_generate` (lines 67-87), observed
through the ordered fragments sent over `tx`: empty / non-UTF-8 /
non-JSON lines are skipped; a non-empty `response` field is forwarded;
`done == Some(true)` breaks the loop. -/
def process_lines : List BodyLine → List Str
  | [] => []
  | BodyLine.empty_line :: rest => process_lines rest
  | BodyLine.invalid_utf8 :: rest => process_lines rest
  | BodyLine.invalid_json :: rest => process_lines rest
  | BodyLine.chunk response done :: rest =>
    let sent :=
      match response with
      | some s => if s.isEmpty then [] else [s]
      | none => []
    if done = some true then sent else sent ++ process_lines rest

/-- `ollama::stream_generate` after the HTTP request: a non-2xx status is
an error carrying status and body text; otherwise the body lines are
processed and the function returns `Ok` with the fragments sent. -/
def stream_generate (status_ok : Bool) (err_text : Str)
    (lines : List BodyLine) : Except Str (List Str) :=
  if status_ok then Except.ok (process_lines lines)
  else Except.error err_text

/-! ## A small concrete engine used to exercise the model -/

/-- A tiny concrete engine over a 3-token vocabulary: the cache state is
trivial, the rng state is a counter, `forward` alternates its favourite
token with the parity of the window length, token id 2 is the configured
stop token, and `decode` renders each token id as one decimal digit (so
decoding is prefix-monotone). -/
def test_engine : Engine Unit Nat where
  encode := fun p => p.map (fun c => c.toNat % 4)
  decode := fun ts => ts.map (fun t => Char.ofNat (48 + t % 10))
  init_cache := ()
  forward := fun w _pos _st =>
    (if w.length % 2 = 0 then [0, 1, 0] else [0, 0, 1], ())
  seed_rng := fun s => s
  draw_all := fun _t _l r => (0, r + 1)
  config_eos := some (LlamaEosToks.single 2)
  token_to_id := fun _ => none

/-- The two-record corpus of the spec's retrieval example scenario. -/
def moon_events : List Event :=
  [⟨str "Moon Landing", str "1969-07-20", str "Apollo 11 lands"⟩,
   ⟨str "Unrelated", str "2000-01-01", str "Nothing relevant"⟩]

/-! ## Helper lemmas about the decode loop -/

theorem decode_step_tokens (e : Engine σ ρ) (temperature : ℚ)
    (prompt_len : Nat) (s : LoopState σ ρ) :
    (decode_step e temperature prompt_len s).2.tokens =
      s.tokens ++ [(decode_step e temperature prompt_len s).1] := rfl

theorem decode_step_index_pos (e : Engine σ ρ) (temperature : ℚ)
    (prompt_len : Nat) (s : LoopState σ ρ) :
    (decode_step e temperature prompt_len s).2.index_pos =
      s.index_pos + (step_window prompt_len s).length := rfl

theorem decode_step_tokens_length (e : Engine σ ρ) (temperature : ℚ)
    (prompt_len : Nat) (s : LoopState σ ρ) :
    (decode_step e temperature prompt_len s).2.tokens.length =
      s.tokens.length + 1 := by
  rw [decode_step_tokens]; simp

theorem decode_loop_tokens_length (e : Engine σ ρ) (temperature : ℚ)
    (prompt_len : Nat) (eos : Option LlamaEosToks) :
    ∀ (fuel : Nat) (s : LoopState σ ρ),
      (decode_loop e temperature prompt_len eos fuel s).tokens.length ≤
        s.tokens.length + fuel
  | 0, _ => Nat.le_refl _
  | n + 1, s => by
    rw [decode_loop]
    split
    · rw [decode_step_tokens_length]; omega
    · have h := decode_loop_tokens_length e temperature prompt_len eos n
        (decode_step e temperature prompt_len s).2
      rw [decode_step_tokens_length] at h
      omega

theorem stream_loop_fst (e : Engine σ ρ) (temperature : ℚ)
    (prompt_len : Nat) (eos : Option LlamaEosToks) :
    ∀ (fuel : Nat) (s : LoopState σ ρ) (last_emitted_len : Nat)
      (acc : List Str),
      (stream_loop e temperature prompt_len eos fuel s last_emitted_len
        acc).1 = decode_loop e temperature prompt_len eos fuel s
  | 0, _, _, _ => rfl
  | n + 1, s, last_emitted_len, acc => by
    rw [stream_loop, decode_loop]
    split
    · rfl
    · exact stream_loop_fst e temperature prompt_len eos n _ _ _

theorem drop_length_sub_one_eq {l : List Nat} (h : l ≠ []) :
    ∃ t, l.getLast? = some t ∧ l.drop (l.length - 1) = [t] := by
  rcases List.eq_nil_or_concat l with rfl | ⟨L, b, rfl⟩
  · exact absurd rfl h
  · rw [List.concat_eq_append]
    refine ⟨b, by simp [List.getLast?_concat], ?_⟩
    have hlen : (L ++ [b]).length - 1 = L.length := by simp
    rw [hlen]
    simp [List.drop_left L [b]]

/-- The compiled-in penalty `1.1` is not within `1e-6` of the identity, so
the rescale branch of `repeat_penalty_step` is always taken in the decode
loop. -/
theorem repeat_guard_off :
    ¬(rat_abs (DEFAULT_REPEAT_PENALTY - 1) < 1 / 1000000) := by
  rw [rat_abs, if_neg (by norm_num [DEFAULT_REPEAT_PENALTY])]
  norm_num [DEFAULT_REPEAT_PENALTY]

/-- On the concrete `test_engine`, the first decode step from the
one-token prompt `[1]` samples token 2, the configured stop token. -/
theorem step_on_one_stop :
    is_stop_token (some (LlamaEosToks.single 2))
      (decode_step test_engine 0 1 (init_state test_engine 7 [1])).1 = true := by
  have hw : step_window 1 (init_state test_engine 7 [1]) = [1] := by decide
  simp only [decode_step, hw]
  rw [repeat_penalty_step, if_neg repeat_guard_off]
  norm_num [init_state, test_engine, lp_sample, sample_argmax,
    apply_repeat_penalty, step_ctx_index, context_spec, List.enum,
    List.enumFrom, is_stop_token, DEFAULT_REPEAT_LAST_N, List.drop]

/-! ## Claim theorems -/

/-- C1: for every prompt, `max_tokens = k`, temperature and seed, both
`generate` and `generate_stream` append at most `k` tokens beyond
`prompt_len` to the token sequence, whether or not a stop token is ever
produced. -/
theorem generation_step_budget (e : Engine σ ρ) (prompt : Str) (k : Nat)
    (temperature : ℚ) (seed : Nat) :
    (generate_final_state e prompt k temperature seed).tokens.length ≤
      (e.encode prompt).length + k ∧
    (stream_final_state e prompt k temperature seed).tokens.length ≤
      (e.encode prompt).length + k := by
  constructor
  · exact decode_loop_tokens_length e temperature (e.encode prompt).length
      (resolve_eos e) k (init_state e seed (e.encode prompt))
  · show (stream_loop e temperature (e.encode prompt).length (resolve_eos e)
        k (init_state e seed (e.encode prompt)) 0 []).1.tokens.length ≤ _
    rw [stream_loop_fst]
    exact decode_loop_tokens_length e temperature (e.encode prompt).length
      (resolve_eos e) k (init_state e seed (e.encode prompt))

/-- C2: whenever the sampled token is in the resolved stop set, the decode
loop halts immediately after appending it: the loop returns the state of
that very step, whose token sequence is the previous sequence with exactly
the stop token appended; and the batch-mode output is the tokenizer's
decoding of the generated suffix `tokens[prompt_len..]` (so the output
reflects the tokenizer's treatment of trailing special tokens). -/
theorem stop_token_halts_loop (e : Engine σ ρ) (temperature : ℚ)
    (prompt_len : Nat) (eos : Option LlamaEosToks) (fuel : Nat)
    (s : LoopState σ ρ)
    (h : is_stop_token eos (decode_step e temperature prompt_len s).1 = true) :
    decode_loop e temperature prompt_len eos (fuel + 1) s =
      (decode_step e temperature prompt_len s).2 ∧
    (decode_step e temperature prompt_len s).2.tokens =
      s.tokens ++ [(decode_step e temperature prompt_len s).1] ∧
    ∀ (p : Str) (k seed : Nat),
      e.generate p k temperature seed =
        e.decode ((generate_final_state e p k temperature seed).tokens.drop
          (e.encode p).length) := by
  refine ⟨?_, rfl, fun _ _ _ => rfl⟩
  rw [decode_loop, if_pos h]

theorem stop_token_halts_loop_witness :
    decode_loop test_engine 0 1 (some (LlamaEosToks.single 2)) 5
        (init_state test_engine 7 [1]) =
      (decode_step test_engine 0 1 (init_state test_engine 7 [1])).2 ∧
    (decode_step test_engine 0 1 (init_state test_engine 7 [1])).2.tokens =
      (init_state test_engine 7 [1]).tokens ++
        [(decode_step test_engine 0 1 (init_state test_engine 7 [1])).1] ∧
    test_engine.generate (str "a") 3 0 5 =
      test_engine.decode
        ((generate_final_state test_engine (str "a") 3 0 5).tokens.drop
          (test_engine.encode (str "a")).length) := by
  have h := stop_token_halts_loop test_engine 0 1 (some (LlamaEosToks.single 2))
    4 (init_state test_engine 7 [1]) step_on_one_stop
  exact ⟨h.1, h.2.1, h.2.2 (str "a") 3 5⟩

/-- C5: at every decode step, if the kv-cache is enabled and at least one
token has been generated (`prompt_len < tokens.length`), the forward
window is exactly the single most-recently-appended token and the position
argument is the current `index_pos`; otherwise the window is the entire
sequence so far and the position argument is 0.  After the step,
`index_pos` has advanced by exactly the length of the window consumed, so
it always equals the total number of tokens fed to the forward pass. -/
theorem window_and_position_invariant (e : Engine σ ρ) (temperature : ℚ)
    (prompt_len : Nat) (s : LoopState σ ρ) :
    ((s.cache.use_kv_cache = true ∧ prompt_len < s.tokens.length) →
      (∃ t, s.tokens.getLast? = some t ∧ step_window prompt_len s = [t]) ∧
      step_ctx_index prompt_len s = s.index_pos) ∧
    (¬(s.cache.use_kv_cache = true ∧ prompt_len < s.tokens.length) →
      step_window prompt_len s = s.tokens ∧
      step_ctx_index prompt_len s = 0) ∧
    (decode_step e temperature prompt_len s).2.index_pos =
      s.index_pos + (step_window prompt_len s).length := by
  refine ⟨?_, ?_, rfl⟩
  · intro h
    have hne : s.tokens ≠ [] := by
      intro hnil
      rw [hnil] at h
      simp at h
    obtain ⟨t, ht1, ht2⟩ := drop_length_sub_one_eq hne
    refine ⟨⟨t, ht1, ?_⟩, ?_⟩
    · rw [step_window, context_spec, if_pos h]
      exact ht2
    · rw [step_ctx_index, context_spec, if_pos h]
  · intro h
    constructor
    · rw [step_window, context_spec, if_neg h]
      simp
    · rw [step_ctx_index, context_spec, if_neg h]

theorem window_and_position_invariant_witness :
    ((∃ t, (init_state test_engine 7 [1, 2]).tokens.getLast? = some t ∧
        step_window 1 (init_state test_engine 7 [1, 2]) = [t]) ∧
      step_ctx_index 1 (init_state test_engine 7 [1, 2]) =
        (init_state test_engine 7 [1, 2]).index_pos) ∧
    (decode_step test_engine 0 1
        (init_state test_engine 7 [1, 2])).2.index_pos =
      (init_state test_engine 7 [1, 2]).index_pos +
        (step_window 1 (init_state test_engine 7 [1, 2])).length :=
  ⟨(window_and_position_invariant test_engine 0 1
      (init_state test_engine 7 [1, 2])).1 (by decide),
   (window_and_position_invariant test_engine 0 1
      (init_state test_engine 7 [1, 2])).2.2⟩

/-- C10: in the remote-backend passthrough, a body line that is empty, not
valid UTF-8, or not parseable as JSON is silently skipped: it produces no
fragment, no error, and does not end the stream; the stream ends only at a
line with `done == Some(true)` or at the end of the body, and with a 2xx
status the function always returns success. -/
theorem passthrough_skips_bad_lines (r : Option Str)
    (rest lines : List BodyLine) (err : Str) :
    process_lines (BodyLine.empty_line :: rest) = process_lines rest ∧
    process_lines (BodyLine.invalid_utf8 :: rest) = process_lines rest ∧
    process_lines (BodyLine.invalid_json :: rest) = process_lines rest ∧
    process_lines (BodyLine.chunk r (some true) :: rest) =
      process_lines [BodyLine.chunk r (some true)] ∧
    stream_generate true err lines = Except.ok (process_lines lines) := by
  refine ⟨rfl, rfl, rfl, ?_, rfl⟩
  simp [process_lines]

/-- C7: a repetition penalty equal to the identity value 1.0 leaves the
logits numerically unchanged (the rescale branch is skipped entirely);
otherwise the rescale touches only the positions of tokens occurring in
the trailing lookback window `tokens[len - last_n ..]`: every other logit
is returned unchanged, and a windowed token's logit is divided by the
penalty when non-negative and multiplied by it when negative. -/
theorem repeat_penalty_identity_and_window (penalty : ℚ) (last_n : Nat)
    (logits : List ℚ) (tokens : List Nat) (i : Nat) :
    repeat_penalty_step 1 last_n logits tokens = logits ∧
    (repeat_penalty_step penalty last_n logits tokens)[i]? =
      (logits[i]?).map (fun v =>
        if ¬(rat_abs (penalty - 1) < 1 / 1000000) ∧
            (tokens.drop (tokens.length - last_n)).contains i then
          (if 0 ≤ v then v / penalty else v * penalty)
        else v) := by
  constructor
  · rw [repeat_penalty_step, if_pos (by norm_num [rat_abs])]
  · by_cases hg : rat_abs (penalty - 1) < 1 / 1000000
    · rw [repeat_penalty_step, if_pos hg]
      rcases hv : logits[i]? with _ | v
      · simp
      · have h1 : ¬((1000000⁻¹ : ℚ) ≤ rat_abs (penalty - 1)) := by
          rw [← one_div]; exact not_le.mpr hg
        simp [h1]
    · rw [repeat_penalty_step, if_neg hg, apply_repeat_penalty]
      simp only [List.getElem?_map, List.enum, List.getElem?_enumFrom,
        Nat.zero_add, Option.map_map]
      rcases hv : logits[i]? with _ | v
      · simp
      · have h1 : (1000000⁻¹ : ℚ) ≤ rat_abs (penalty - 1) := by
          rw [← one_div]; exact not_lt.mp hg
        simp [h1]

theorem repeat_penalty_identity_and_window_witness :
    repeat_penalty_step 1 64 [2, -2, 4] [0, 1] = [2, -2, 4] ∧
    (repeat_penalty_step DEFAULT_REPEAT_PENALTY 64 [2, -2, 4] [0, 1])[0]? =
      (([2, -2, 4] : List ℚ)[0]?).map (fun v =>
        if ¬(rat_abs (DEFAULT_REPEAT_PENALTY - 1) < 1 / 1000000) ∧
            (([0, 1] : List Nat).drop
              (([0, 1] : List Nat).length - 64)).contains 0 then
          (if 0 ≤ v then v / DEFAULT_REPEAT_PENALTY
           else v * DEFAULT_REPEAT_PENALTY)
        else v) :=
  ⟨(repeat_penalty_identity_and_window 1 64 [2, -2, 4] [0, 1] 0).1,
   (repeat_penalty_identity_and_window DEFAULT_REPEAT_PENALTY 64 [2, -2, 4]
      [0, 1] 0).2⟩

/-- C8: a retrieval failure — events file missing, unreadable, or
malformed — is never fatal to the generate command: the prompt is built
exactly as if no corpus had been supplied, and the command returns the
same normal (non-error) result it returns without a corpus. -/
theorem retrieval_failure_nonfatal (e : Engine σ ρ) (fs : FileSys)
    (prompt path : Str) (current_date : Option Str) (mt : Option Nat)
    (temp : Option ℚ)
    (h : fs path = none ∨ ∃ msg, fs path = some (Except.error msg)) :
    build_prompt_with_rag fs prompt (some path) current_date =
      build_prompt_with_rag fs prompt none current_date ∧
    generate_command e fs prompt (some path) current_date mt temp =
      generate_command e fs prompt none current_date mt temp := by
  have hb : build_prompt_with_rag fs prompt (some path) current_date =
      build_prompt_with_rag fs prompt none current_date := by
    rcases h with h | ⟨msg, h⟩
    · simp [build_prompt_with_rag, h]
    · simp [build_prompt_with_rag, h, retrieve_context, load_events]
  refine ⟨hb, ?_⟩
  rw [generate_command, generate_command, generate_command_raw,
    generate_command_raw, hb]

theorem retrieval_failure_nonfatal_witness :
    build_prompt_with_rag (fun _p => none) (str "hi")
        (some (str "events.json")) none =
      build_prompt_with_rag (fun _p => none) (str "hi") none none ∧
    generate_command test_engine (fun _p => none) (str "hi")
        (some (str "events.json")) none none none =
      generate_command test_engine (fun _p => none) (str "hi") none none
        none none :=
  retrieval_failure_nonfatal test_engine (fun _p => none) (str "hi")
    (str "events.json") none none none (Or.inl rfl)

/-- With `temperature ≤ 0` the sampler is arg-max, which neither reads
nor advances the rng, so the token trajectory of the decode loop does not
depend on the rng component of the state. -/
theorem decode_loop_tokens_seed_free (e : Engine σ ρ) (temperature : ℚ)
    (prompt_len : Nat) (eos : Option LlamaEosToks) (h : temperature ≤ 0) :
    ∀ (fuel : Nat) (tks : List Nat) (ip : Nat) (c : KvCache σ) (r₁ r₂ : ρ),
      (decode_loop e temperature prompt_len eos fuel
        ⟨tks, ip, c, r₁⟩).tokens =
      (decode_loop e temperature prompt_len eos fuel
        ⟨tks, ip, c, r₂⟩).tokens
  | 0, tks, ip, c, r₁, r₂ => rfl
  | n + 1, tks, ip, c, r₁, r₂ => by
    have key : ∀ r : ρ, decode_step e temperature prompt_len ⟨tks, ip, c, r⟩ =
        (sample_argmax (repeat_penalty_step DEFAULT_REPEAT_PENALTY
           DEFAULT_REPEAT_LAST_N
           (e.forward
             (tks.drop (tks.length -
               (context_spec c.use_kv_cache prompt_len tks ip).1))
             (context_spec c.use_kv_cache prompt_len tks ip).2 c.st).1 tks),
         ⟨tks ++ [sample_argmax (repeat_penalty_step DEFAULT_REPEAT_PENALTY
             DEFAULT_REPEAT_LAST_N
             (e.forward
               (tks.drop (tks.length -
                 (context_spec c.use_kv_cache prompt_len tks ip).1))
               (context_spec c.use_kv_cache prompt_len tks ip).2 c.st).1 tks)],
          ip + (tks.drop (tks.length -
            (context_spec c.use_kv_cache prompt_len tks ip).1)).length,
          ⟨c.use_kv_cache,
           (e.forward
             (tks.drop (tks.length -
               (context_spec c.use_kv_cache prompt_len tks ip).1))
             (context_spec c.use_kv_cache prompt_len tks ip).2 c.st).2⟩,
          r⟩) := by
      intro r
      simp only [decode_step, lp_sample, h, ite_true, if_true, step_window,
        step_ctx_index]
    rw [decode_loop, decode_loop, key r₁, key r₂]
    dsimp only
    split
    · rfl
    · exact decode_loop_tokens_seed_free e temperature prompt_len eos h n
        _ _ _ r₁ r₂

/-- C4: for a fixed prompt, model and `max_tokens`, at temperature 0 two
full runs of `generate` produce identical output, and the output does not
even depend on the seed: the sampler is arg-max and no other source of
nondeterminism affects the result. -/
theorem argmax_determinism (e : Engine σ ρ) (prompt : Str) (k : Nat)
    (seed seed₁ seed₂ : Nat) :
    e.generate prompt k 0 seed = e.generate prompt k 0 seed ∧
    e.generate prompt k 0 seed₁ = e.generate prompt k 0 seed₂ := by
  refine ⟨rfl, ?_⟩
  rw [Engine.generate, Engine.generate, generate_final_state,
    generate_final_state, init_state, init_state]
  rw [decode_loop_tokens_seed_free e 0 (e.encode prompt).length
    (resolve_eos e) (le_refl 0) k (e.encode prompt) 0
    ⟨true, e.init_cache⟩ (e.seed_rng seed₁) (e.seed_rng seed₂)]

theorem prefix_take_eq {α : Type} {l₁ l₂ : List α} (h : l₁ <+: l₂) {n : Nat}
    (hn : n ≤ l₁.length) : l₁.take n = l₂.take n := by
  obtain ⟨t, rfl⟩ := h
  rw [List.take_append_of_le_length hn]

/-- The emission block keeps the concatenated fragments equal to the full
decoded suffix: if the fragments so far form the first `last` characters
of a prefix `old` of the newly decoded `full`, then after the emission
block the fragments concatenate exactly to `full` and the recorded length
is `full.length`. -/
theorem stream_emit_spec (full : Str) (last : Nat) (acc : List Str)
    (old : Str) (hpre : old <+: full) (hacc : acc.flatten = old.take last)
    (hlast : last ≤ old.length) :
    (stream_emit full last acc).2.flatten = full ∧
    (stream_emit full last acc).1 = full.length := by
  rw [stream_emit]
  by_cases hlt : last < full.length
  · rw [if_pos hlt]
    have hne : (full.drop last).isEmpty = false := by
      rw [List.isEmpty_eq_false, Ne, List.drop_eq_nil_iff]
      omega
    rw [hne]
    constructor
    · show (acc ++ [full.drop last]).flatten = full
      rw [List.flatten_append, hacc, prefix_take_eq hpre hlast]
      simp [List.take_append_drop]
    · rfl
  · rw [if_neg hlt]
    have h1 : old.length ≤ full.length := hpre.length_le
    have h2 : full.length ≤ last := Nat.le_of_not_lt hlt
    have h4 : old = full := hpre.eq_of_length (by omega)
    constructor
    · show acc.flatten = full
      rw [hacc, h4, (by omega : last = full.length), List.take_length]
    · show last = full.length
      omega

/-- Invariant of the streaming loop: provided decoding is prefix-monotone
along appended tokens, the emitted fragments always concatenate to the
prefix of the currently decoded suffix recorded by `last`, and after at
least one iteration they concatenate to the entire decoded suffix. -/
theorem stream_loop_flatten (e : Engine σ ρ) (temperature : ℚ)
    (prompt_len : Nat) (eos : Option LlamaEosToks)
    (hmono : ∀ (ts : List Nat) (t : Nat),
      e.decode ts <+: e.decode (ts ++ [t])) :
    ∀ (fuel : Nat) (s : LoopState σ ρ) (last : Nat) (acc : List Str),
      prompt_len ≤ s.tokens.length →
      acc.flatten = (e.decode (s.tokens.drop prompt_len)).take last →
      last ≤ (e.decode (s.tokens.drop prompt_len)).length →
      ((stream_loop e temperature prompt_len eos fuel s last
          acc).2.2.flatten =
        (e.decode ((stream_loop e temperature prompt_len eos fuel s last
          acc).1.tokens.drop prompt_len)).take
          (stream_loop e temperature prompt_len eos fuel s last acc).2.1) ∧
      (stream_loop e temperature prompt_len eos fuel s last acc).2.1 ≤
        (e.decode ((stream_loop e temperature prompt_len eos fuel s last
          acc).1.tokens.drop prompt_len)).length ∧
      (0 < fuel →
        (stream_loop e temperature prompt_len eos fuel s last acc).2.1 =
          (e.decode ((stream_loop e temperature prompt_len eos fuel s last
            acc).1.tokens.drop prompt_len)).length)
  | 0, s, last, acc, _hp, hacc, hlast =>
    ⟨hacc, hlast, fun h => absurd h (Nat.lt_irrefl 0)⟩
  | n + 1, s, last, acc, hp, hacc, hlast => by
    have hsuffix : (decode_step e temperature prompt_len s).2.tokens.drop
        prompt_len =
        s.tokens.drop prompt_len ++
          [(decode_step e temperature prompt_len s).1] := by
      rw [decode_step_tokens, List.drop_append_of_le_length hp]
    have hpre : e.decode (s.tokens.drop prompt_len) <+:
        e.decode ((decode_step e temperature prompt_len s).2.tokens.drop
          prompt_len) := by
      rw [hsuffix]
      exact hmono _ _
    have hemit := stream_emit_spec
      (e.decode ((decode_step e temperature prompt_len s).2.tokens.drop
        prompt_len)) last acc _ hpre hacc hlast
    rw [stream_loop]
    split
    · refine ⟨?_, ?_, fun _ => hemit.2⟩
      · rw [hemit.1, hemit.2, List.take_length]
      · rw [hemit.2]
    · have hp' : prompt_len ≤
          (decode_step e temperature prompt_len s).2.tokens.length := by
        rw [decode_step_tokens_length]
        omega
      have ih := stream_loop_flatten e temperature prompt_len eos hmono n
        (decode_step e temperature prompt_len s).2
        (stream_emit
          (e.decode ((decode_step e temperature prompt_len s).2.tokens.drop
            prompt_len)) last acc).1
        (stream_emit
          (e.decode ((decode_step e temperature prompt_len s).2.tokens.drop
            prompt_len)) last acc).2
        hp'
        (by rw [hemit.1, hemit.2, List.take_length])
        (by rw [hemit.2])
      refine ⟨ih.1, ih.2.1, fun _ => ?_⟩
      match n with
      | 0 => exact hemit.2
      | m + 1 => exact ih.2.2 (Nat.succ_pos m)

/-- C3: for the same prompt, seed, temperature and model, the
concatenation of every fragment emitted by `generate_stream` equals the
batch-mode `generate` output, under the documented assumption that
decoding never retroactively changes already-decoded text (each decoded
text extends the previous one; a retroactive change would not be
retransmitted). -/
theorem streaming_matches_batch (e : Engine σ ρ) (prompt : Str) (k : Nat)
    (temperature : ℚ) (seed : Nat)
    (hnil : e.decode [] = [])
    (hmono : ∀ (ts : List Nat) (t : Nat),
      e.decode ts <+: e.decode (ts ++ [t])) :
    (e.generate_stream prompt k temperature seed).flatten =
      e.generate prompt k temperature seed := by
  rcases k with _ | n
  · show ([] : List Str).flatten = _
    rw [Engine.generate, generate_final_state, decode_loop]
    show [] = e.decode ((init_state e seed (e.encode prompt)).tokens.drop
      (e.encode prompt).length)
    rw [init_state]
    simp [List.drop_length, hnil]
  · have h := stream_loop_flatten e temperature (e.encode prompt).length
      (resolve_eos e) hmono (n + 1) (init_state e seed (e.encode prompt))
      0 [] (Nat.le_refl _) rfl (Nat.zero_le _)
    rw [Engine.generate_stream, h.1, h.2.2 (Nat.succ_pos n), List.take_length,
      stream_loop_fst]
    rfl

theorem streaming_matches_batch_witness :
    (test_engine.generate_stream (str "ab") 5 0 7).flatten =
      test_engine.generate (str "ab") 5 0 7 :=
  streaming_matches_batch test_engine (str "ab") 5 0 7 rfl
    (fun ts t => ⟨[Char.ofNat (48 + t % 10)], by simp [test_engine]⟩)

theorem find_from_some {p : Nat → Bool} :
    ∀ (fuel i j : Nat), find_from p fuel i = some j →
      p j = true ∧ i ≤ j ∧ ∀ k, i ≤ k → k < j → p k = false
  | 0, i, j, h => by rw [find_from] at h; exact absurd h (by simp)
  | fuel + 1, i, j, h => by
    rw [find_from] at h
    by_cases hp : p i
    · rw [if_pos hp] at h
      cases h
      exact ⟨hp, Nat.le_refl _, fun k hk1 hk2 => by omega⟩
    · rw [if_neg hp] at h
      obtain ⟨h1, h2, h3⟩ := find_from_some fuel (i + 1) j h
      refine ⟨h1, by omega, fun k hk1 hk2 => ?_⟩
      rcases Nat.eq_or_lt_of_le hk1 with rfl | hlt
      · exact Bool.eq_false_iff.mpr hp
      · exact h3 k hlt hk2

theorem find_from_none {p : Nat → Bool} :
    ∀ (fuel i : Nat), find_from p fuel i = none →
      ∀ k, i ≤ k → k < i + fuel → p k = false
  | 0, _, _, _, _, _ => by omega
  | fuel + 1, i, h, k, hk1, hk2 => by
    rw [find_from] at h
    by_cases hp : p i
    · rw [if_pos hp] at h
      exact absurd h (by simp)
    · rw [if_neg hp] at h
      rcases Nat.eq_or_lt_of_le hk1 with rfl | hlt
      · exact Bool.eq_false_iff.mpr hp
      · exact find_from_none fuel (i + 1) h k hlt (by omega)

theorem marker_occurrence_le (response m : Str) (i : Nat)
    (hm : m ∈ fake_user_markers)
    (hp : m.isPrefixOf (response.drop i) = true) : i ≤ response.length := by
  by_contra hc
  rw [List.drop_eq_nil_of_le (by omega)] at hp
  rw [List.isPrefixOf_iff_prefix, List.prefix_nil] at hp
  have hne : ∀ m' ∈ fake_user_markers, m' ≠ [] := by decide
  exact hne m hm hp

/-- C9: the string returned by the batch generate command is the raw
engine output truncated at the earliest occurrence of any of the markers
`"\nUser:"`, `"\n<|user|>"`, `"\n\nUser:"` (the full text when none
occurs), with trailing whitespace trimmed; in particular the returned
string is always a prefix of the raw generated text. -/
theorem generate_command_truncates_markers (e : Engine σ ρ) (fs : FileSys)
    (response prompt : Str) (events_path current_date : Option Str)
    (mt : Option Nat) (temp : Option ℚ) :
    generate_command e fs prompt events_path current_date mt temp =
      strip_fake_user_prompts
        (generate_command_raw e fs prompt events_path current_date mt
          temp) ∧
    strip_fake_user_prompts response =
      trim_end (response.take (truncate_at response)) ∧
    ((truncate_at response = response.length ∧
        ∀ i, ¬marker_at response i) ∨
      (marker_at response (truncate_at response) ∧
        ∀ i < truncate_at response, ¬marker_at response i)) ∧
    strip_fake_user_prompts response <+: response := by
  refine ⟨rfl, rfl, ?_, ?_⟩
  · rcases hmin : (fake_user_markers.filterMap
        (fun m => find_sub_idx response m)).min? with _ | x
    · left
      have hempty : fake_user_markers.filterMap
          (fun m => find_sub_idx response m) = [] :=
        List.min?_eq_none_iff.mp hmin
      constructor
      · rw [truncate_at, hmin]
        rfl
      · rintro i ⟨m, hm, hp⟩
        have hibound := marker_occurrence_le response m i hm hp
        rcases hsome : find_sub_idx response m with _ | j
        · rw [find_sub_idx] at hsome
          have hall := find_from_none _ _ hsome i (Nat.zero_le i) (by omega)
          simp only [hall] at hp
          exact absurd hp (by simp)
        · have hmem : j ∈ fake_user_markers.filterMap
              (fun m => find_sub_idx response m) :=
            List.mem_filterMap.mpr ⟨m, hm, hsome⟩
          rw [hempty] at hmem
          exact absurd hmem (List.not_mem_nil j)
    · right
      have hx := List.min?_eq_some_iff'.mp hmin
      have hT : truncate_at response = x := by
        rw [truncate_at, hmin]
        rfl
      constructor
      · obtain ⟨m, hm, hsome⟩ := List.mem_filterMap.mp hx.1
        rw [find_sub_idx] at hsome
        obtain ⟨hp, -, -⟩ := find_from_some _ _ _ hsome
        rw [hT]
        exact ⟨m, hm, hp⟩
      · rintro i hi ⟨m, hm, hp⟩
        have hibound := marker_occurrence_le response m i hm hp
        rcases hsome : find_sub_idx response m with _ | j
        · rw [find_sub_idx] at hsome
          have hall := find_from_none _ _ hsome i (Nat.zero_le i) (by omega)
          simp only [hall] at hp
          exact absurd hp (by simp)
        · have hxj : x ≤ j := hx.2 j (List.mem_filterMap.mpr ⟨m, hm, hsome⟩)
          rw [find_sub_idx] at hsome
          obtain ⟨hpj, -, hminimal⟩ := find_from_some _ _ _ hsome
          have hji : j ≤ i := by
            by_contra hc
            have hfalse := hminimal i (Nat.zero_le i) (by omega)
            simp only [hfalse] at hp
            exact absurd hp (by simp)
          omega
  · rw [strip_fake_user_prompts]
    have h1 : trim_end (response.take (truncate_at response)) <+:
        response.take (truncate_at response) := by
      rw [trim_end]
      have h := List.dropWhile_suffix (l :=
        (response.take (truncate_at response)).reverse) Char.isWhitespace
      have h2 := List.reverse_prefix.mpr h
      simpa using h2
    exact h1.trans (List.take_prefix _ _)

theorem generate_command_truncates_markers_witness :
    strip_fake_user_prompts (str "Hi there!  \nUser: more") =
      trim_end ((str "Hi there!  \nUser: more").take
        (truncate_at (str "Hi there!  \nUser: more"))) ∧
    strip_fake_user_prompts (str "Hi there!  \nUser: more") <+:
      str "Hi there!  \nUser: more" :=
  ⟨(generate_command_truncates_markers test_engine (fun _p => none)
      (str "Hi there!  \nUser: more") (str "p") none none none none).2.1,
   (generate_command_truncates_markers test_engine (fun _p => none)
      (str "Hi there!  \nUser: more") (str "p") none none none none).2.2.2⟩

/-- `score_desc` is transitive. -/
theorem score_desc_trans : ∀ (a b c : Nat × Event),
    score_desc a b → score_desc b c → score_desc a c := by
  intro a b c hab hbc
  simp only [score_desc, decide_eq_true_eq] at hab hbc ⊢
  omega

/-- `score_desc` is total. -/
theorem score_desc_total : ∀ (a b : Nat × Event),
    score_desc a b || score_desc b a := by
  intro a b
  simp only [score_desc, Bool.or_eq_true, decide_eq_true_eq]
  omega

/-- Stability of the score sort: the sorted list restricted to any fixed
score `d` is exactly the input restricted to score `d`, in input order. -/
theorem mergeSort_filter_score (l : List (Nat × Event)) (d : Nat) :
    (l.mergeSort score_desc).filter (fun p => decide (p.1 = d)) =
      l.filter (fun p => decide (p.1 = d)) := by
  have hsub : List.Sublist (l.filter (fun p => decide (p.1 = d))) l :=
    List.filter_sublist l
  have hmem : ∀ a ∈ l.filter (fun p => decide (p.1 = d)), a.1 = d := by
    intro a ha
    have := (List.mem_filter.mp ha).2
    simpa using this
  have hpw : (l.filter (fun p => decide (p.1 = d))).Pairwise
      (fun a b => score_desc a b) := by
    apply List.pairwise_of_forall_mem_list
    intro a ha b hb
    simp [score_desc, hmem a ha, hmem b hb]
  have h1 : List.Sublist (l.filter (fun p => decide (p.1 = d)))
      (l.mergeSort score_desc) :=
    List.sublist_mergeSort score_desc_trans score_desc_total hpw hsub
  have h2 : (l.filter (fun p => decide (p.1 = d))).filter
      (fun p => decide (p.1 = d)) = l.filter (fun p => decide (p.1 = d)) :=
    List.filter_eq_self.mpr (fun a ha => by simp [hmem a ha])
  have h3 : List.Sublist (l.filter (fun p => decide (p.1 = d)))
      ((l.mergeSort score_desc).filter (fun p => decide (p.1 = d))) := by
    have h := h1.filter (fun p => decide (p.1 = d))
    rwa [h2] at h
  have h4 : ((l.mergeSort score_desc).filter
      (fun p => decide (p.1 = d))).length =
      (l.filter (fun p => decide (p.1 = d))).length :=
    ((List.mergeSort_perm l score_desc).filter _).length_eq
  exact (h3.eq_of_length h4.symm).symm

/-- Every scored positive carries a positive score equal to the score of
its event. -/
theorem scored_events_mem (events : List Event) (words : List Str) :
    ∀ p ∈ scored_events events words,
      0 < p.1 ∧ p.1 = score_event words p.2 := by
  intro p hp
  rw [scored_events] at hp
  obtain ⟨hmem, hpos⟩ := List.mem_filter.mp hp
  obtain ⟨ev, _, heq⟩ := List.mem_map.mp hmem
  constructor
  · simpa using hpos
  · rw [← heq]

/-- C6: `search_events` lower-cases the query and splits it into words of
length > 1; with no usable words it returns the first `limit` records in
original order; otherwise it scores each record by the number of query
words occurring as substrings of its lower-cased searchable text
(title and description), excludes zero-score records, sorts by
descending score stably (original order preserved among equal scores,
expressed by the score-class filter equations), and truncates to
`limit`. -/
theorem search_events_spec (events : List Event) (query : Str)
    (limit : Nat) :
    (query_words query = [] →
      search_events events query limit = events.take limit) ∧
    (query_words query ≠ [] →
      ∃ sortedAll : List (Nat × Event),
        search_events events query limit =
          (sortedAll.take limit).map Prod.snd ∧
        sortedAll.Perm (scored_events events (query_words query)) ∧
        sortedAll.Pairwise (fun a b => b.1 ≤ a.1) ∧
        (∀ p ∈ sortedAll, 0 < p.1 ∧
          p.1 = score_event (query_words query) p.2) ∧
        (∀ d, sortedAll.filter (fun p => decide (p.1 = d)) =
          (scored_events events (query_words query)).filter
            (fun p => decide (p.1 = d)))) ∧
    (search_events events query limit).length ≤ limit := by
  refine ⟨?_, ?_, ?_⟩
  · intro h
    rw [search_events, if_pos (by simp [h])]
  · intro h
    refine ⟨(scored_events events (query_words query)).mergeSort score_desc,
      ?_, ?_, ?_, ?_, ?_⟩
    · rw [search_events, if_neg (by simp [List.isEmpty_iff, h])]
    · exact List.mergeSort_perm _ _
    · have hs := List.sorted_mergeSort score_desc_trans score_desc_total
        (scored_events events (query_words query))
      exact hs.imp (fun hab => by simpa [score_desc] using hab)
    · intro p hp
      exact scored_events_mem events (query_words query) p
        (List.mem_mergeSort.mp hp)
    · intro d
      exact mergeSort_filter_score _ d
  · rw [search_events]
    split
    · exact List.length_take_le _ _
    · rw [List.length_map]
      exact List.length_take_le _ _

theorem search_events_spec_witness :
    ∃ sortedAll : List (Nat × Event),
      search_events moon_events (str "moon landing") 5 =
        (sortedAll.take 5).map Prod.snd ∧
      sortedAll.Perm (scored_events moon_events
        (query_words (str "moon landing"))) ∧
      sortedAll.Pairwise (fun a b => b.1 ≤ a.1) ∧
      (∀ p ∈ sortedAll, 0 < p.1 ∧
        p.1 = score_event (query_words (str "moon landing")) p.2) ∧
      (∀ d, sortedAll.filter (fun p => decide (p.1 = d)) =
        (scored_events moon_events
          (query_words (str "moon landing"))).filter
          (fun p => decide (p.1 = d))) :=
  (search_events_spec moon_events (str "moon landing") 5).2.1 (by decide)
